import Mathlib

/-!
Verification of the scene-classification and week-aggregation logic of the
Obsidian Manuscript Calendar plugin (src/main.ts, the `ManuscriptCalendarView`
version).

Modelling conventions, shared by every definition below:

* Dates are modelled at day granularity.  A JavaScript `Date` whose time has
  been stripped with `setHours(0,0,0,0)` (or constructed at UTC midnight via
  `Date.UTC(y, m, d)`) is represented by its civil (year, month, day) triple,
  and date comparisons are comparisons of proleptic-Gregorian day numbers.
  Millisecond arithmetic in the source divides exactly by 86_400_000, so a
  day-number model is exact for every comparison the code performs.
* JavaScript `Math.floor(a / b)` for positive `b` is Lean's `Int` division
  `/` (Euclidean division, which agrees with floor division when the divisor
  is positive); the specification of `getUTCDay` is floor-modulus, `% 7` here.
* Frontmatter fields that may be a string or an array of strings are modelled
  as `Option (String ⊕ List String)`, with `none` standing for a missing
  (JS-falsy `undefined`) field.  Where the source tests JS truthiness of such
  a value, an empty string is falsy and an array (even empty) is truthy; each
  modelled predicate spells the same test out.
* The outcome of the host's `new Date(raw)` parsing of a `Due` value
  (including the link-object `Due.path` unwrapping) is modelled by the field
  `Due : Option DueParse`: `none` for a missing/falsy `Due`, `some .invalid`
  for a parse that yields `NaN`, `some (.valid d)` for a successful parse of
  the civil date `d`.
-/

/-- Civil calendar date (proleptic Gregorian); the day-granularity model of a
JavaScript `Date` value. -/
structure CivilDate where
  year : Int
  month : Int
  day : Int
deriving DecidableEq

/-- Gregorian leap-year test for the proleptic calendar. -/
def isLeap (y : Int) : Bool :=
  (y % 4 == 0 && y % 100 != 0) || y % 400 == 0

/-- Number of leap years among the years strictly before `y` (floor divisions
extend the count to every integer year). -/
def leapCount (y : Int) : Int :=
  (y - 1) / 4 - (y - 1) / 100 + (y - 1) / 400

/-- Day number of January 1st of year `y` (day 0 is January 1st of year 1). -/
def jan1 (y : Int) : Int :=
  365 * (y - 1) + leapCount y

/-- Days of the year elapsed before month `m` begins, in a non-leap year
(month 1 is January; the March-onward branch is the usual closed form of the
31/30-day month pattern, e.g. it yields 59, 90, 120, … for m = 3, 4, 5, …). -/
def daysBeforeMonthNL (m : Int) : Int :=
  if m ≤ 2 then 31 * (m - 1) else (153 * (m - 3) + 2) / 5 + 59

/-- Days of the year elapsed before month `m` begins in year `y`. -/
def daysBeforeMonth (y m : Int) : Int :=
  daysBeforeMonthNL m + (if 3 ≤ m then (if isLeap y then 1 else 0) else 0)

/-- Number of days in month `m` of year `y`. -/
def daysInMonth (y m : Int) : Int :=
  if m = 2 then (if isLeap y then 29 else 28)
  else if m = 4 ∨ m = 6 ∨ m = 9 ∨ m = 11 then 30 else 31

/-- Day number of a civil date: its distance in days from January 1st of
year 1.  Differences of day numbers are exactly the day differences the
source computes from UTC-midnight timestamps. -/
def dayNum (d : CivilDate) : Int :=
  jan1 d.year + daysBeforeMonth d.year d.month + (d.day - 1)

/-- The civil date is a real calendar date (month in range, day in range for
its month). -/
def ValidDate (d : CivilDate) : Prop :=
  1 ≤ d.month ∧ d.month ≤ 12 ∧ 1 ≤ d.day ∧ d.day ≤ daysInMonth d.year d.month

instance (d : CivilDate) : Decidable (ValidDate d) := by
  unfold ValidDate; infer_instance

/-- Day of the week of day number `z`, with the JavaScript `getUTCDay`
convention 0 = Sunday … 6 = Saturday.  (Day 0, January 1st of year 1, is a
Monday in the proleptic Gregorian calendar.) -/
def dayOfWeek (z : Int) : Int :=
  (z + 1) % 7

/-- The special-case condition of `getWeekNumber` (src/main.ts line 1326):
the Sunday-to-Saturday span starting at the Sunday on or before `date` also
reaches January 1st of the following year. -/
def weekSpecialB (date : CivilDate) : Bool :=
  let targetDate := dayNum date
  let sundayDate := targetDate - dayOfWeek targetDate
  let firstOfNextYear := dayNum ⟨date.year + 1, 1, 1⟩
  let saturdayDate := sundayDate + 6
  decide (sundayDate < firstOfNextYear ∧ firstOfNextYear ≤ saturdayDate)

/-- Embedding of `ManuscriptCalendarView.getWeekNumber` (src/main.ts lines
1311-1359).  `currentYear` is `date.getFullYear()`, the Sunday of the current
week is found by subtracting `getUTCDay`, and the week number is
`Math.floor(diffDays / 7) + 1` computed from the Sunday of the week containing
January 1st; the millisecond-to-day division in the source is exact. -/
def getWeekNumber (date : CivilDate) : Int :=
  if weekSpecialB date then 1
  else
    let targetDate := dayNum date
    let sundayDate := targetDate - dayOfWeek targetDate
    let firstOfCurrentYear := dayNum ⟨date.year, 1, 1⟩
    let firstWeekSunday := firstOfCurrentYear - dayOfWeek firstOfCurrentYear
    let diffDays := sundayDate - firstWeekSunday
    diffDays / 7 + 1

/-- Specification-side week number, following the words of the spec (§4.1):
return 1 when the Sunday-to-Saturday week containing the date also contains
January 1st of the following year; otherwise count the Sunday-to-Sunday
boundaries elapsed since the Sunday on or before January 1st of the date's
own year and add one.  Written from the spec for comparison with
`getWeekNumber`. -/
def specWeekNumber (date : CivilDate) : Int :=
  let z := dayNum date
  let sunday := z - dayOfWeek z
  let janNext := dayNum ⟨date.year + 1, 1, 1⟩
  if sunday ≤ janNext ∧ janNext ≤ sunday + 6 then 1
  else
    let janCur := dayNum ⟨date.year, 1, 1⟩
    let sundayOfJan1 := janCur - dayOfWeek janCur
    (sunday - sundayOfJan1) / 7 + 1

/-- Example week-number computations checking the model against known
calendar facts (November 15 2023 was a Wednesday in US week 46; Jan 1 2023
was a Sunday). -/
example : getWeekNumber ⟨2023, 11, 15⟩ = 46 := by decide

example : dayOfWeek (dayNum ⟨2023, 11, 15⟩) = 3 := by decide

example : dayOfWeek (dayNum ⟨1970, 1, 1⟩) = 4 := by decide

example : getWeekNumber ⟨2024, 12, 31⟩ = 1 := by decide

example : getWeekNumber ⟨2023, 1, 1⟩ = 1 := by decide

/-- Character-list model of JavaScript `String.prototype.trim`. -/
def jsTrim (l : List Char) : List Char :=
  ((l.dropWhile Char.isWhitespace).reverse.dropWhile Char.isWhitespace).reverse

/-- Character-list model of JavaScript `toLowerCase` (ASCII case folding). -/
def foldCase (l : List Char) : List Char :=
  l.map Char.toLower

/-- String model of JavaScript `toUpperCase` (per-character case mapping on
the string's character list). -/
def jsToUpper (s : String) : String :=
  String.mk (s.data.map Char.toUpper)

/-- String model of JavaScript `toLowerCase`. -/
def jsToLower (s : String) : String :=
  String.mk (s.data.map Char.toLower)

/-- Leading decimal digits of a character list, as a number; `none` when the
list does not start with a digit (JavaScript `parseInt` yields `NaN` then). -/
def leadingDigitsVal (l : List Char) : Option Nat :=
  let ds := l.takeWhile Char.isDigit
  if ds = [] then none
  else some (ds.foldl (fun a c => a * 10 + (c.toNat - 48)) 0)

/-- Model of JavaScript `parseInt(s, 10)` on an already-trimmed string:
an optional sign followed by a longest digit prefix; `none` models `NaN`. -/
def jsParseInt : List Char → Option Int
  | [] => none
  | c :: cs =>
    if c = '-' then (leadingDigitsVal cs).map (fun n : Nat => -(n : Int))
    else if c = '+' then (leadingDigitsVal cs).map (fun n : Nat => (n : Int))
    else (leadingDigitsVal (c :: cs)).map (fun n : Nat => (n : Int))

/-- A JavaScript value reaching `parseWordCount`: a number (modelled as an
integer), a string, or anything else (``undefined``, objects, …). -/
inductive WCIn where
  | num (n : Int)
  | str (s : String)
  | undef
deriving DecidableEq

/-- Character-list model of `replace(/,/g, '')`: drop every comma. -/
def stripCommas (l : List Char) : List Char :=
  l.filter (fun c => !(c == ','))

/-- Embedding of `ManuscriptCalendarView.parseWordCount` (src/main.ts lines
1674-1688): a number is returned as-is; a string has every comma removed
(`replace(/,/g, '')`), is trimmed, and parsed with `parseInt(·, 10)`, with
`NaN` mapped to 0; any other value yields 0. -/
def parseWordCount : WCIn → Int
  | .num n => n
  | .str s =>
    let cleanCount := jsTrim (stripCommas s.data)
    match jsParseInt cleanCount with
    | some v => v
    | none => 0
  | .undef => 0

example : parseWordCount (.str "1,500") = 1500 := by decide

example : parseWordCount (.str " 2,000 ") = 2000 := by decide

example : parseWordCount (.str "abc") = 0 := by decide

example : parseWordCount .undef = 0 := by decide

/-- JS truthiness of a word-count field value (`0`, `""` and `undefined` are
falsy). -/
def wcTruthy : WCIn → Bool
  | .num n => n != 0
  | .str s => s != ""
  | .undef => false

/-- Normalization applied to a publish-stage string in the completed-scene
processing (src/main.ts lines 1977-1990) and in the split-dot branch (lines
2242-2247): the exact legacy names `Zero`/`First`/`Editing`/`Press` are
mapped to canonical stages, anything else is upper-cased. -/
def legacyNormalize (s : String) : String :=
  if s = "Zero" then "ZERO"
  else if s = "First" then "AUTHOR"
  else if s = "Editing" then "HOUSE"
  else if s = "Press" then "PRESS"
  else jsToUpper s

/-- Normalization applied by the highest-stage scan (src/main.ts lines
1552-1557): `String(v).toUpperCase()` first, then the legacy synonyms
`FIRST` → `AUTHOR` and `EDITING` → `HOUSE`. -/
def normalizeStageScan (s : String) : String :=
  let u := jsToUpper s
  if u = "FIRST" then "AUTHOR" else if u = "EDITING" then "HOUSE" else u

/-- Canonical stages in order of advancement, lowest to highest
(src/main.ts line 1538). -/
def stageNames : List String := ["ZERO", "AUTHOR", "HOUSE", "PRESS"]

/-- Rank of a stage name: the `stageRank.get(pageStage) ?? 0` lookup of
src/main.ts line 1560 (unknown names fall back to rank 0). -/
def stageRank (s : String) : Nat :=
  if s = "ZERO" then 0 else if s = "AUTHOR" then 1
  else if s = "HOUSE" then 2 else if s = "PRESS" then 3 else 0

/-- Outcome of the host's date parsing of a `Due` frontmatter value. -/
inductive DueParse where
  | invalid
  | valid (date : CivilDate)
deriving DecidableEq

/-- Record model of a Dataview page as read by the plugin (the `DataviewPage`
interface plus the frontmatter fields the code accesses).  String-or-array
fields use `String ⊕ List String`; `none` models a missing field. -/
structure Page where
  path : String
  Status : Option (String ⊕ List String) := none
  Class : Option (String ⊕ List String) := none
  Due : Option DueParse := none
  Revision : Option Int := none
  publishStage : Option (String ⊕ List String) := none
  Words : Option WCIn := none
  WordCount : Option WCIn := none
deriving DecidableEq

/-- The `page.Status && (Array.isArray ? includes(v) : === v)` pattern used by
the Todo/Working and Complete filters: a missing status never matches, a
string matches by equality, an array when some element equals `v` (an empty
string is JS-falsy but also never equals the target, so the truthiness guard
is absorbed by the equality test). -/
def statusIncludes (p : Page) (v : String) : Bool :=
  match p.Status with
  | none => false
  | some (.inl s) => s == v
  | some (.inr l) => l.contains v

/-- The `isNotComplete` test of the overdue filter (src/main.ts lines
1869-1872): the status must be JS-truthy, and, if a string, differ from
`"Complete"`; if an array, contain no `"Complete"` element. -/
def statusNotComplete (p : Page) : Bool :=
  match p.Status with
  | none => false
  | some (.inl s) => s != "" && s != "Complete"
  | some (.inr l) => !(l.contains "Complete")

/-- The `hasSceneClass` test (src/main.ts lines 1815-1819, 1874-1878,
1932-1936): `Class` present and either equal to `"Scene"` or an array
containing `"Scene"`. -/
def isSceneClass (p : Page) : Bool :=
  match p.Class with
  | none => false
  | some (.inl s) => s == "Scene"
  | some (.inr l) => l.contains "Scene"

/-- Embedding of the helper `isNoteComplete` (src/main.ts lines 1023-1030):
the status, or some element of a status array, trimmed and lower-cased,
equals `"complete"`. -/
def isNoteComplete (p : Page) : Bool :=
  match p.Status with
  | none => false
  | some (.inl s) => foldCase (jsTrim s.data) == "complete".data
  | some (.inr l) => l.any (fun s => foldCase (jsTrim s.data) == "complete".data)

example : isNoteComplete { path := "a", Status := some (.inl " Complete ") } = true := by decide

example : isNoteComplete { path := "a", Status := some (.inl "complete") } = true := by decide

example : isNoteComplete { path := "a", Status := some (.inl "Todo") } = false := by decide

/-- The `todoOrWorkingPages` filter (src/main.ts lines 1814-1827): Scene class
and a Todo or Working status. -/
def todoOrWorkingFilter (p : Page) : Bool :=
  isSceneClass p && (statusIncludes p "Todo" || statusIncludes p "Working")

/-- The `isDueDateInPast` test of the overdue filter (src/main.ts lines
1880-1892): a present, parsable due date strictly before today (both at day
granularity, `setHours(0,0,0,0)` on each side). -/
def dueInPast (today : Int) (p : Page) : Bool :=
  match p.Due with
  | some (.valid d) => decide (dayNum d < today)
  | _ => false

/-- The `overduePages` filter (src/main.ts lines 1868-1895). -/
def overdueFilter (today : Int) (p : Page) : Bool :=
  statusNotComplete p && isSceneClass p && dueInPast today p

/-- The `completedScenes` filter (src/main.ts lines 1923-1939): status equal
to (or an array containing) exactly `"Complete"`, and Scene class. -/
def completedFilter (p : Page) : Bool :=
  statusIncludes p "Complete" && isSceneClass p

/-- Publish-stage value of a completed scene as normalized by the aggregation
pass (src/main.ts lines 1969-1990): missing or falsy values default to
`"ZERO"`, an array contributes its first element (or `"ZERO"`), then
`legacyNormalize` is applied. -/
def normStageAgg (v : Option (String ⊕ List String)) : String :=
  let s0 : String :=
    match v with
    | none => "ZERO"
    | some (.inl s) => if s = "" then "ZERO" else s
    | some (.inr l) =>
      match l.head? with
      | none => "ZERO"
      | some h => if h = "" then "ZERO" else h
  legacyNormalize s0

/-- Word-count input selected by `page["Words"] || page["Word Count"] || 0`
(src/main.ts line 1965): the first JS-truthy value, defaulting to the
number 0. -/
def pageWordCountInput (p : Page) : WCIn :=
  match p.Words with
  | some w =>
    if wcTruthy w then w
    else
      match p.WordCount with
      | some w2 => if wcTruthy w2 then w2 else .num 0
      | none => .num 0
  | none =>
    match p.WordCount with
    | some w2 => if wcTruthy w2 then w2 else .num 0
    | none => .num 0

/-- Parsed word count of a page, `parseWordCount(page["Words"] || page["Word Count"] || 0)`. -/
def pageWordCount (p : Page) : Int :=
  parseWordCount (pageWordCountInput p)

/-- Accumulated statistics of one week bucket (the `WeekStats` of the
source). -/
structure WeekStats where
  sceneCount : Nat
  wordCount : Int
deriving DecidableEq

/-- Scene count of an optional bucket, with the absent bucket reading 0. -/
def scOf (o : Option WeekStats) : Nat :=
  (o.getD ⟨0, 0⟩).sceneCount

/-- Word count of an optional bucket, with the absent bucket reading 0. -/
def wcOf (o : Option WeekStats) : Int :=
  (o.getD ⟨0, 0⟩).wordCount

/-- One entry of `revisionMap` (src/main.ts line 2077): the revision number
and normalized publish stage of a completed scene. -/
structure SceneRev where
  revision : Int
  publishStage : String
deriving DecidableEq

/-- The classification sets built by one `renderCalendarBody` pass.  Maps are
modelled as total functions with the JS `Map`'s miss value as default
(`[]` for list-valued maps, `none` for `completedWeekStats`); the `Set`s of
date keys are membership functions.  A week bucket is keyed by the pair
(due year, week number), the exact content of the `` `${year}-W${week}` ``
string key, which is injective in the two numbers. -/
structure RenderSets where
  todoFuture : CivilDate → Bool
  workingFuture : CivilDate → Bool
  overdue : CivilDate → Bool
  notesByDate : CivilDate → List Page
  weekStats : Int × Int → Option WeekStats
  revisionMap : CivilDate → List SceneRev

/-- The initial (empty) classification sets of a render pass. -/
def emptyRenderSets : RenderSets where
  todoFuture := fun _ => false
  workingFuture := fun _ => false
  overdue := fun _ => false
  notesByDate := fun _ => []
  weekStats := fun _ => none
  revisionMap := fun _ => []

/-- Insert a date into a date set. -/
def setInsert (f : CivilDate → Bool) (d : CivilDate) : CivilDate → Bool :=
  fun x => if x = d then true else f x

/-- Append a page to a date-keyed list map. -/
def mapPush (f : CivilDate → List Page) (d : CivilDate) (p : Page) : CivilDate → List Page :=
  fun x => if x = d then f x ++ [p] else f x

/-- Processing of one Todo/Working page (src/main.ts lines 1830-1864): skip
missing or unparsable due dates; when the due date is today or later, record
the date in the Working or Todo future set (Working wins when both statuses
are present) and add the page to `notesByDate`. -/
def processTodoWorking (today : Int) (sets : RenderSets) (p : Page) : RenderSets :=
  match p.Due with
  | some (.valid d) =>
    if today ≤ dayNum d then
      let sets1 :=
        if statusIncludes p "Working" then
          { sets with workingFuture := setInsert sets.workingFuture d }
        else
          { sets with todoFuture := setInsert sets.todoFuture d }
      { sets1 with notesByDate := mapPush sets1.notesByDate d p }
    else sets
  | _ => sets

/-- Processing of one overdue page (src/main.ts lines 1898-1919): skip
missing or unparsable due dates; record the date in the overdue set and add
the page to `notesByDate` unless a page with the same path is already listed
for that date. -/
def processOverdue (sets : RenderSets) (p : Page) : RenderSets :=
  match p.Due with
  | some (.valid d) =>
    let sets1 := { sets with overdue := setInsert sets.overdue d }
    if (sets1.notesByDate d).any (fun n => n.path == p.path) then sets1
    else { sets1 with notesByDate := mapPush sets1.notesByDate d p }
  | _ => sets

/-- Processing of one completed scene (src/main.ts lines 1942-2094): skip
missing or unparsable due dates and due dates after today; otherwise
increment the scene count of the due date's week bucket by one, add the
parsed word count to the bucket, and record the revision/stage pair and the
page itself under the due date. -/
def processCompleted (today : Int) (sets : RenderSets) (p : Page) : RenderSets :=
  match p.Due with
  | some (.valid d) =>
    if today < dayNum d then sets
    else
      let wk : Int × Int := (d.year, getWeekNumber d)
      let wc := pageWordCount p
      let rev := p.Revision.getD 0
      let stage := normStageAgg p.publishStage
      let prev := (sets.weekStats wk).getD ⟨0, 0⟩
      let sets1 := { sets with
        weekStats := fun k =>
          if k = wk then some ⟨prev.sceneCount + 1, prev.wordCount + wc⟩
          else sets.weekStats k }
      let sets2 := { sets1 with
        revisionMap := fun k =>
          if k = d then sets1.revisionMap k ++ [(⟨rev, stage⟩ : SceneRev)]
          else sets1.revisionMap k }
      { sets2 with notesByDate := mapPush sets2.notesByDate d p }
  | _ => sets

/-- One full classification pass of `renderCalendarBody` (src/main.ts lines
1723-2102).  `dataview = none` models an unavailable record-source plugin
(the `if (this.app.plugins.plugins.dataview)` guard): every set stays empty
and rendering proceeds.  Otherwise the three page scans run in source order:
future Todo/Working, overdue, completed scenes. -/
def buildRenderSets (today : Int) (dataview : Option (List Page)) : RenderSets :=
  match dataview with
  | none => emptyRenderSets
  | some pages =>
    let s1 := (pages.filter todoOrWorkingFilter).foldl (processTodoWorking today) emptyRenderSets
    let s2 := (pages.filter (overdueFilter today)).foldl processOverdue s1
    (pages.filter completedFilter).foldl (processCompleted today) s2

/-- Numerator and denominator shown in a week-number cell (src/main.ts lines
2134-2159): when the week has stats with at least one scene, the ratio is
`sceneCount` over `Math.floor(wordCount / 100)`; otherwise no ratio is
shown. -/
def weekRatioDisplay (stats : Option WeekStats) : Option (Nat × Int) :=
  match stats with
  | some s => if 1 ≤ s.sceneCount then some (s.sceneCount, s.wordCount / 100) else none
  | none => none

/-- Stage colour class of the split (overdue + completed) dot (src/main.ts
lines 2231-2249): the first completed note of the date supplies its publish
stage (array first element, legacy names mapped, upper-cased), defaulting to
`stage-zero` when there is no completed note or no truthy stage. -/
def splitStageCls (notes : List Page) : String :=
  match notes.find? isNoteComplete with
  | none => "stage-zero"
  | some n =>
    match n.publishStage with
    | none => "stage-zero"
    | some (.inl s) =>
      if s = "" then "stage-zero" else "stage-" ++ jsToLower (legacyNormalize s)
    | some (.inr l) =>
      let h : String :=
        match l.head? with
        | none => "ZERO"
        | some x => if x = "" then "ZERO" else x
      "stage-" ++ jsToLower (legacyNormalize h)

/-- The four stage checks driving the per-day stage dots (src/main.ts lines
2298-2303): canonical stage name paired with its CSS class. -/
def stageChecks : List (String × String) :=
  [("ZERO", "stage-zero"), ("AUTHOR", "stage-author"),
   ("HOUSE", "stage-house"), ("PRESS", "stage-press")]

/-- The legacy key looked up alongside each canonical stage (src/main.ts
lines 2311-2323): the `stageCheckMap` key mapping to the canonical name, or
`""` when there is none. -/
def legacyKeyOf (s : String) : String :=
  if s = "ZERO" then "Zero" else if s = "AUTHOR" then "First"
  else if s = "HOUSE" then "Editing" else if s = "PRESS" then "Press" else ""

/-- A canonical stage is shown for a date when the date's completed scenes
contain it, canonically or under its legacy name (the
`stagesForDate.has(check.stage) || stagesForDate.has(legacy)` test). -/
def stagePresent (scenes : List SceneRev) (st : String) : Bool :=
  scenes.any (fun sc => sc.publishStage == st || sc.publishStage == legacyKeyOf st)

/-- Top-level display state of one day cell. -/
inductive DayState where
  | noIndicator
  | splitOverdue (stageCls : String)
  | overdueDot
  | workingDot
  | futureTodoDot
  | stageDots (dotClasses : List String) (zeroSplit : Bool)
deriving DecidableEq

/-- Stage dots of a date: one CSS class per canonical stage present among the
date's completed scenes (the `stageChecks.forEach` loop of src/main.ts lines
2318-2368). -/
def dotsOf (scenes : List SceneRev) : List String :=
  (stageChecks.filter (fun ch => stagePresent scenes ch.1)).map (fun ch => ch.2)

/-- Embedding of the per-day indicator decision tree of `renderCalendarBody`
(src/main.ts lines 2196-2396).  Overdue wins first and splits when the date
also has a completed note; then future-Working, then future-Todo; otherwise
one dot per canonical stage present among the date's completed scenes, with
a zero/revised split flagged when stage ZERO appears with both a zero and a
non-zero revision. -/
def dayState (sets : RenderSets) (d : CivilDate) : DayState :=
  let notes := sets.notesByDate d
  let scenes := sets.revisionMap d
  if sets.overdue d then
    if notes.any isNoteComplete then .splitOverdue (splitStageCls notes)
    else .overdueDot
  else if sets.workingFuture d then .workingDot
  else if sets.todoFuture d then .futureTodoDot
  else if scenes != [] then
    let hasZeroRevision := scenes.any (fun sc => sc.revision == 0)
    let hasNonZeroRevision := scenes.any (fun sc => sc.revision != 0)
    let zeroSplit := hasZeroRevision && hasNonZeroRevision &&
      (scenes.any (fun sc => sc.publishStage == "ZERO") ||
       scenes.any (fun sc => sc.publishStage == "Zero"))
    .stageDots (dotsOf scenes) zeroSplit
  else .noIndicator

/-- An action the day-cell click handler performs on the workspace. -/
inductive ClickAction where
  | revealTab (path : String)
  | openTab (path : String) (active : Bool)
deriving DecidableEq

/-- Target selection of the click handler (src/main.ts lines 2419-2431): on a
split-dot day (overdue and some completed note) only the non-complete notes
are targeted; otherwise every note of the date. -/
def clickTargets (isOverdueDay : Bool) (notes : List Page) : List Page :=
  if isOverdueDay && notes.any isNoteComplete then
    notes.filter (fun n => !(isNoteComplete n))
  else notes

/-- The reveal step of the click handler (src/main.ts lines 2439-2449): when
the first target note is currently open, its path (the existing leaf is
revealed). -/
def specReveal (targets : List Page) (openPaths : List String) : Option String :=
  match targets.head? with
  | none => none
  | some n => if openPaths.contains n.path then some n.path else none

/-- The open loop of the click handler (src/main.ts lines 2452-2469): walk the
targets with their `forEach` index, skip paths already processed, skip paths
missing from the vault, and open each remaining target as a new tab, active
exactly when no existing tab was activated and the index is 0. -/
def openLoop (vault : String → Bool) (didActivateTab : Bool) :
    Nat → List String → List Page → List ClickAction
  | _, _, [] => []
  | i, processed, n :: rest =>
    if n.path ∈ processed then openLoop vault didActivateTab (i + 1) processed rest
    else if vault n.path then
      .openTab n.path (!didActivateTab && i == 0) ::
        openLoop vault didActivateTab (i + 1) (n.path :: processed) rest
    else openLoop vault didActivateTab (i + 1) (n.path :: processed) rest

/-- Embedding of the whole day-cell click handler (src/main.ts lines
2399-2470): nothing happens for a date without notes; otherwise the targets
are selected, the first target's existing tab (if any) is revealed, and the
open loop runs over all targets. -/
def clickActions (isOverdueDay : Bool) (notes : List Page)
    (openPaths : List String) (vault : String → Bool) : List ClickAction :=
  if notes.isEmpty then []
  else
    let targets := clickTargets isOverdueDay notes
    let revealed := specReveal targets openPaths
    (match revealed with
     | some pth => [ClickAction.revealTab pth]
     | none => []) ++ openLoop vault revealed.isSome 0 [] targets

/-- Click behaviour as the spec states it (§4.6), written from the spec's
words for comparison with `clickActions`: every already-open target is
revealed rather than opened again, the closed targets are opened as new
tabs, and only the first newly opened one is active when no existing tab was
revealed. -/
def clickActionsSpec (isOverdueDay : Bool) (notes : List Page)
    (openPaths : List String) (vault : String → Bool) : List ClickAction :=
  if notes.isEmpty then []
  else
    let targets := clickTargets isOverdueDay notes
    let openT := targets.filter (fun n => openPaths.contains n.path)
    let closedT := (targets.filter (fun n => !(openPaths.contains n.path))).filter
      (fun n => vault n.path)
    openT.map (fun n => ClickAction.revealTab n.path) ++
      (List.enumFrom 0 closedT).map
        (fun q => ClickAction.openTab q.2.path (openT.isEmpty && q.1 == 0))

/-- Index-tagged open actions used to state the corrected click behaviour:
targets paired with their `forEach` index, kept when present in the vault,
opened with the activation rule of the source. -/
def specOpenActions (vault : String → Bool) (didActivateTab : Bool)
    (targets : List Page) : List ClickAction :=
  ((List.enumFrom 0 targets).filter (fun q => vault q.2.path)).map
    (fun q => ClickAction.openTab q.2.path (!didActivateTab && q.1 == 0))

/-- Overdue classification as claim C4 words it: class matches Scene, the
status — the single value or every element of a collection — is not
`"Complete"` (vacuously true for a missing status), and a parsable due date
lies strictly before today.  Written from the claim for comparison with
`overdueFilter`. -/
def specOverdueC4 (today : Int) (p : Page) : Bool :=
  let statusNotCompleteSpec :=
    match p.Status with
    | none => true
    | some (.inl s) => s != "Complete"
    | some (.inr l) => !(l.contains "Complete")
  isSceneClass p && statusNotCompleteSpec && dueInPast today p

/-- One step of the highest-stage scan (src/main.ts lines 1550-1564): a page
with a truthy `Publish Stage` value (`String(v)` renders an array as its
comma join) contributes the rank of its normalized stage when that rank
exceeds the running maximum. -/
def hsStep (acc : Nat) (p : Page) : Nat :=
  match p.publishStage with
  | none => acc
  | some (.inl s) =>
    if s = "" then acc
    else
      let r := stageRank (normalizeStageScan s)
      if r > acc then r else acc
  | some (.inr l) =>
    let r := stageRank (normalizeStageScan (String.intercalate "," l))
    if r > acc then r else acc

/-- Highest-stage scan state machine (src/main.ts lines 1547-1573): fold the
step over all pages, starting from rank 0. -/
def highestStageIdx (pages : List Page) : Nat :=
  pages.foldl hsStep 0

/-- Highest publish stage of the current note set: the `stages[index]` kept in
step with the running index (defaulting to `"ZERO"`). -/
def highestStage (pages : List Page) : String :=
  stageNames.getD (highestStageIdx pages) "ZERO"

/-- Normalized stage rank contributed by one page to the highest-stage scan,
when it carries a truthy publish-stage value. -/
def stageRankOf (p : Page) : Option Nat :=
  match p.publishStage with
  | none => none
  | some (.inl s) => if s = "" then none else some (stageRank (normalizeStageScan s))
  | some (.inr l) => some (stageRank (normalizeStageScan (String.intercalate "," l)))

/-- Highest stage as the spec states it (§4.3): the maximum normalized stage
rank among all records carrying a publish-stage value, ZERO (rank 0) when
none does.  Written from the spec for comparison with `highestStage`. -/
def specHighestStage (pages : List Page) : String :=
  stageNames.getD ((pages.filterMap stageRankOf).foldl max 0) "ZERO"

/-- Week-statistics component of `processCompleted` in isolation: the update
the completed-scene loop performs on `completedWeekStats` for one page. -/
def wsStep (today : Int) (w : Int × Int → Option WeekStats) (p : Page) :
    Int × Int → Option WeekStats :=
  match p.Due with
  | some (.valid d) =>
    if today < dayNum d then w
    else
      let wk : Int × Int := (d.year, getWeekNumber d)
      let prev := (w wk).getD ⟨0, 0⟩
      fun k =>
        if k = wk then some ⟨prev.sceneCount + 1, prev.wordCount + pageWordCount p⟩
        else w k
  | _ => w

/-- Status condition of the corrected claim C4: a status value is present,
and the single string is non-empty and differs from `"Complete"`, or the
collection has no `"Complete"` element. -/
def StatusPresentNotComplete (p : Page) : Prop :=
  ∃ st, p.Status = some st ∧
    (∀ s, st = Sum.inl s → s ≠ "" ∧ s ≠ "Complete") ∧
    (∀ l, st = Sum.inr l → l.contains "Complete" = false)

/-- Due-date condition of claim C4: the due date parses and lies strictly
before today. -/
def DuePastProp (today : Int) (p : Page) : Prop :=
  ∃ d, p.Due = some (DueParse.valid d) ∧ dayNum d < today

/-- Due date used by the claim C10 scenario. -/
def d10 : CivilDate := ⟨2025, 3, 10⟩

/-- The value of `today` in the claim C10 scenario (the day after `d10`). -/
def t10 : Int := dayNum ⟨2025, 3, 11⟩

/-- The claim C10 scenario record: a Scene with past due date whose status is
the lower-case string `"complete"`. -/
def r10 : Page :=
  { path := "scene1.md"
    Status := some (.inl "complete")
    Class := some (.inl "Scene")
    Due := some (.valid d10) }

/-- Concrete classification sets used to instantiate the claim C3 theorem:
one date is overdue and carries one completed note. -/
def c3Sets : RenderSets where
  todoFuture := fun _ => false
  workingFuture := fun _ => false
  overdue := fun x => x == d10
  notesByDate := fun x => if x = d10 then [r10] else []
  weekStats := fun _ => none
  revisionMap := fun _ => []

/-! Helper lemmas about the calendar arithmetic. -/

theorem dayNum_jan1 (y : Int) : dayNum ⟨y, 1, 1⟩ = jan1 y := by
  simp [dayNum, daysBeforeMonth, daysBeforeMonthNL]

theorem jan1_succ_bounds (y : Int) :
    365 ≤ jan1 (y + 1) - jan1 y ∧ jan1 (y + 1) - jan1 y ≤ 366 := by
  unfold jan1 leapCount
  omega

theorem isLeap_iff (y : Int) :
    isLeap y = true ↔ ((y % 4 = 0 ∧ y % 100 ≠ 0) ∨ y % 400 = 0) := by
  simp [isLeap]

theorem jan1_succ_leap (y : Int) :
    jan1 (y + 1) - jan1 y = 365 + (if isLeap y then 1 else 0) := by
  have hiff := isLeap_iff y
  cases hL : isLeap y
  case false =>
    rw [hL] at hiff
    simp only [Bool.false_eq_true, false_iff] at hiff
    unfold jan1 leapCount
    simp only [Bool.false_eq_true, if_false]
    omega
  case true =>
    rw [hL] at hiff
    simp only [true_iff] at hiff
    unfold jan1 leapCount
    simp only [if_true]
    omega

theorem dayNum_lower (d : CivilDate) (h : ValidDate d) : jan1 d.year ≤ dayNum d := by
  obtain ⟨h1, h2, h3, h4⟩ := h
  unfold dayNum daysBeforeMonth daysBeforeMonthNL
  split_ifs <;> omega

theorem dayNum_upper (d : CivilDate) (h : ValidDate d) : dayNum d < jan1 (d.year + 1) := by
  obtain ⟨h1, h2, h3, h4⟩ := h
  have hj := jan1_succ_leap d.year
  unfold daysInMonth at h4
  unfold dayNum daysBeforeMonth daysBeforeMonthNL
  cases hL : isLeap d.year <;> rw [hL] at hj h4 <;>
    simp only [Bool.false_eq_true, if_false, if_true] at hj h4 ⊢ <;>
    split_ifs at h4 ⊢ <;> omega

/-- Claim C2: for every calendar date, `getWeekNumber` returns 1 exactly when
the Sunday-to-Saturday week containing the date also contains January 1st of
the following year, and otherwise the count of Sunday-to-Sunday boundaries
elapsed since the Sunday on or before January 1st of the date's own year,
plus one — i.e. it refines `specWeekNumber`, the spec-worded calculator. -/
theorem claim_C2_week_number_refines_spec (d : CivilDate) (h : ValidDate d) :
    getWeekNumber d = specWeekNumber d := by
  have hlo := dayNum_lower d h
  have hhi := dayNum_upper d h
  have hj1 := dayNum_jan1 (d.year + 1)
  have hj0 := dayNum_jan1 d.year
  simp only [getWeekNumber, specWeekNumber, weekSpecialB, dayOfWeek, decide_eq_true_eq]
  split_ifs <;> omega

/-- Witness for claim C2 at the year-boundary edge date December 31 2024
(whose Sunday-to-Saturday week contains January 1 2025). -/
theorem claim_C2_witness :
    ValidDate ⟨2024, 12, 31⟩ ∧
      getWeekNumber ⟨2024, 12, 31⟩ = specWeekNumber ⟨2024, 12, 31⟩ :=
  ⟨by decide, claim_C2_week_number_refines_spec ⟨2024, 12, 31⟩ (by decide)⟩

/-- Claim C6: for every calendar date the week number lies in [1, 53], and
within one year the week number is monotone along increasing dates, except
when the later date falls under the year-boundary special case (which
assigns it week 1 of the following year). -/
theorem claim_C6_week_number_range_and_mono :
    (∀ d : CivilDate, ValidDate d → 1 ≤ getWeekNumber d ∧ getWeekNumber d ≤ 53) ∧
    (∀ d1 d2 : CivilDate, ValidDate d1 → ValidDate d2 → d1.year = d2.year →
      dayNum d1 ≤ dayNum d2 → weekSpecialB d2 = false →
      getWeekNumber d1 ≤ getWeekNumber d2) := by
  constructor
  · intro d h
    have hlo := dayNum_lower d h
    have hhi := dayNum_upper d h
    have hj1 := dayNum_jan1 (d.year + 1)
    have hj0 := dayNum_jan1 d.year
    have hb := jan1_succ_bounds d.year
    simp only [getWeekNumber, weekSpecialB, dayOfWeek, decide_eq_true_eq]
    split_ifs <;> omega
  · intro d1 d2 h1 h2 hy hle hsp
    have hlo1 := dayNum_lower d1 h1
    have hhi1 := dayNum_upper d1 h1
    have hlo2 := dayNum_lower d2 h2
    have hhi2 := dayNum_upper d2 h2
    have hj1 := dayNum_jan1 (d1.year + 1)
    have hj1b := dayNum_jan1 (d2.year + 1)
    have hj0 := dayNum_jan1 d1.year
    have hj0b := dayNum_jan1 d2.year
    simp only [weekSpecialB, dayOfWeek, decide_eq_false_iff_not] at hsp
    simp only [getWeekNumber, weekSpecialB, dayOfWeek, decide_eq_true_eq]
    rw [hy] at hj1 hj0 hlo1 hhi1 ⊢
    split_ifs <;> omega

/-- Witness for claim C6: the range bound at the leap-year date
February 29 2024, and monotonicity from March 1 to November 15 2023. -/
theorem claim_C6_witness :
    (ValidDate ⟨2024, 2, 29⟩ ∧ 1 ≤ getWeekNumber ⟨2024, 2, 29⟩ ∧
      getWeekNumber ⟨2024, 2, 29⟩ ≤ 53) ∧
    (dayNum ⟨2023, 3, 1⟩ ≤ dayNum ⟨2023, 11, 15⟩ ∧
      getWeekNumber ⟨2023, 3, 1⟩ ≤ getWeekNumber ⟨2023, 11, 15⟩) :=
  ⟨⟨by decide, (claim_C6_week_number_range_and_mono.1 ⟨2024, 2, 29⟩ (by decide)).1,
      (claim_C6_week_number_range_and_mono.1 ⟨2024, 2, 29⟩ (by decide)).2⟩,
    ⟨by decide, claim_C6_week_number_range_and_mono.2 ⟨2023, 3, 1⟩ ⟨2023, 11, 15⟩
      (by decide) (by decide) rfl (by decide) (by decide)⟩⟩

/-! Helper lemmas about the word-count parser. -/

theorem isDigit_not_isWhitespace (c : Char) (h : c.isDigit = true) :
    c.isWhitespace = false := by
  revert h
  unfold Char.isWhitespace Char.isDigit
  rcases Decidable.em (c = ' ') with h1 | h1
  · subst h1; decide
  · rcases Decidable.em (c = '\t') with h2 | h2
    · subst h2; decide
    · rcases Decidable.em (c = '\r') with h3 | h3
      · subst h3; decide
      · rcases Decidable.em (c = '\n') with h4 | h4
        · subst h4; decide
        · intro _
          simp [h1, h2, h3, h4]

theorem dropWhile_of_all_false {p : Char → Bool} (l : List Char)
    (h : ∀ c ∈ l, p c = false) : l.dropWhile p = l := by
  cases l with
  | nil => rfl
  | cons c cs =>
    rw [List.dropWhile_cons, if_neg]
    simp [h c (List.mem_cons_self c cs)]

theorem jsTrim_of_all_digits (l : List Char) (h : ∀ c ∈ l, c.isDigit = true) :
    jsTrim l = l := by
  unfold jsTrim
  have hws : ∀ c ∈ l, c.isWhitespace = false := fun c hc => isDigit_not_isWhitespace c (h c hc)
  rw [dropWhile_of_all_false l hws,
    dropWhile_of_all_false l.reverse (fun c hc => hws c (List.mem_reverse.mp hc)),
    List.reverse_reverse]

theorem jsParseInt_of_all_digits (l : List Char) (h : ∀ c ∈ l, c.isDigit = true) :
    ∀ v, jsParseInt l = some v → 0 ≤ v := by
  intro v hv
  cases l with
  | nil => simp [jsParseInt] at hv
  | cons c cs =>
    have hc := h c (List.mem_cons_self c cs)
    have hcm : ¬ c = '-' := by rintro rfl; simp at hc
    have hcp : ¬ c = '+' := by rintro rfl; simp at hc
    rw [jsParseInt, if_neg hcm, if_neg hcp] at hv
    rcases Option.map_eq_some'.mp hv with ⟨n, _, heq⟩
    have heq2 : (n : Int) = v := heq
    omega

/-- Claim C9 counterexample: the code returns a numeric input as-is, so the
negative number −5 comes back negative, refuting "for every input, the
word-count parser returns a non-negative integer". -/
theorem claim_C9_counterexample :
    parseWordCount (.num (-5)) = -5 ∧ ¬ (0 ≤ parseWordCount (.num (-5))) :=
  ⟨rfl, by decide⟩

/-- Claim C9 as amended: the parser returns a numeric input as-is (so a
negative input propagates), parses a comma-formatted numeric string with the
commas removed, yields 0 for an absent or non-numeric input, and the result
is non-negative for every string input made of digits and commas. -/
theorem claim_C9_amended :
    (∀ n : Int, parseWordCount (.num n) = n) ∧
    parseWordCount (.str "1,500") = 1500 ∧
    parseWordCount .undef = 0 ∧
    parseWordCount (.str "abc") = 0 ∧
    (∀ s : String, (∀ c ∈ s.data, c.isDigit = true ∨ c = ',') →
      0 ≤ parseWordCount (.str s)) := by
  refine ⟨fun n => rfl, by decide, rfl, by decide, ?_⟩
  intro s hs
  have hdig : ∀ c ∈ stripCommas s.data, c.isDigit = true := by
    intro c hc
    rcases List.mem_filter.mp hc with ⟨hmem, hne⟩
    rcases hs c hmem with h | h
    · exact h
    · simp [h] at hne
  rcases hp : jsParseInt (stripCommas s.data) with _ | v
  · simp [parseWordCount, jsTrim_of_all_digits _ hdig, hp]
  · have hnn := jsParseInt_of_all_digits _ hdig v hp
    simp only [parseWordCount, jsTrim_of_all_digits _ hdig, hp]
    exact hnn

/-- Witness for the amended claim C9: the digits-and-commas string "1,500"
is parsed to the non-negative value 1500. -/
theorem claim_C9_witness :
    (∀ c ∈ ("1,500" : String).data, c.isDigit = true ∨ c = ',') ∧
      0 ≤ parseWordCount (.str "1,500") :=
  ⟨by decide, claim_C9_amended.2.2.2.2 "1,500" (by decide)⟩

/-- Claim C4 counterexample: a Scene record with a past due date but no
status field at all.  The claim's condition — status not `"Complete"` —
holds vacuously, yet the code's overdue filter rejects the record because
`page.Status` is falsy. -/
theorem claim_C4_counterexample :
    overdueFilter (dayNum ⟨2025, 5, 20⟩)
        { path := "a.md", Class := some (.inl "Scene"),
          Due := some (.valid ⟨2025, 5, 19⟩) } = false ∧
      specOverdueC4 (dayNum ⟨2025, 5, 20⟩)
        { path := "a.md", Class := some (.inl "Scene"),
          Due := some (.valid ⟨2025, 5, 19⟩) } = true := by
  constructor <;> decide

/-- Claim C4 as amended: a record is classified Overdue exactly when its
class matches Scene, a status value is present whose single string is
non-empty and differs from `"Complete"` (or whose collection contains no
`"Complete"`), and its parsable due date is strictly before today (day
granularity being built into the date model). -/
theorem claim_C4_amended (today : Int) (p : Page) :
    overdueFilter today p = true ↔
      (isSceneClass p = true ∧ StatusPresentNotComplete p ∧ DuePastProp today p) := by
  unfold overdueFilter StatusPresentNotComplete DuePastProp statusNotComplete dueInPast
  rcases hst : p.Status with _ | (s | l) <;> rcases hd : p.Due with _ | (_ | dd) <;>
    simp [hst, hd] <;> tauto

/-! Helper lemmas about the highest-stage scan. -/

theorem hsStep_eq (acc : Nat) (p : Page) :
    hsStep acc p = match stageRankOf p with
      | none => acc
      | some r => max acc r := by
  unfold hsStep stageRankOf
  rcases hps : p.publishStage with _ | (s | l)
  · rfl
  · by_cases hs : s = ""
    · simp [hs]
    · simp only [hs, if_false, Nat.max_def]
      split_ifs <;> omega
  · simp only [Nat.max_def]
    split_ifs <;> omega

theorem hs_fold (l : List Page) :
    ∀ acc : Nat, l.foldl hsStep acc = (l.filterMap stageRankOf).foldl max acc := by
  induction l with
  | nil => intro acc; rfl
  | cons p tl ih =>
    intro acc
    rw [List.foldl_cons, List.filterMap_cons, hsStep_eq]
    rcases h : stageRankOf p with _ | r
    · exact ih acc
    · rw [List.foldl_cons]
      exact ih (max acc r)

/-- Claim C5: the highest-stage resolver equals the spec-worded maximum over
all records carrying a publish-stage value; legacy synonyms First/Editing are
normalized to AUTHOR/HOUSE case-insensitively; the class of a record never
affects the scan; it defaults to ZERO when no record carries a stage; and on
records staged ZERO, HOUSE, AUTHOR it returns HOUSE. -/
theorem claim_C5_highest_stage :
    (∀ pages : List Page, highestStage pages = specHighestStage pages) ∧
    normalizeStageScan "First" = "AUTHOR" ∧
    normalizeStageScan "Editing" = "HOUSE" ∧
    normalizeStageScan "fIrSt" = "AUTHOR" ∧
    normalizeStageScan "eDiTiNg" = "HOUSE" ∧
    (∀ (pages : List Page) (c : Option (String ⊕ List String)),
      highestStageIdx (pages.map (fun p => { p with Class := c })) = highestStageIdx pages) ∧
    (∀ pages : List Page, pages.filterMap stageRankOf = [] → highestStage pages = "ZERO") ∧
    highestStage
      [{ path := "a", publishStage := some (.inl "ZERO") },
       { path := "b", publishStage := some (.inl "HOUSE") },
       { path := "c", publishStage := some (.inl "AUTHOR") }] = "HOUSE" := by
  refine ⟨?_, by decide, by decide, by decide, by decide, ?_, ?_, by decide⟩
  · intro pages
    unfold highestStage specHighestStage highestStageIdx
    rw [hs_fold]
  · intro pages c
    unfold highestStageIdx
    rw [List.foldl_map]
    rfl
  · intro pages hnone
    unfold highestStage highestStageIdx
    rw [hs_fold, hnone]
    rfl

/-- Witness for claim C5: an empty record set carries no stage and resolves
to ZERO. -/
theorem claim_C5_witness :
    ([] : List Page).filterMap stageRankOf = [] ∧ highestStage [] = "ZERO" :=
  ⟨rfl, claim_C5_highest_stage.2.2.2.2.2.2.1 [] rfl⟩

/-- Claim C8: a record whose due date is missing or unparsable is skipped by
every date-dependent classification pass — Todo/Working future dates,
overdue dates, and completed-scene week aggregation all leave the
classification sets unchanged — and when the record-source plugin is
unavailable the render pass produces the empty classification sets instead
of failing (all modelled passes are total functions). -/
theorem claim_C8_unparsable_dates_and_missing_source :
    (∀ (today : Int) (sets : RenderSets) (p : Page),
      p.Due = none ∨ p.Due = some DueParse.invalid →
        processTodoWorking today sets p = sets ∧
        processOverdue sets p = sets ∧
        processCompleted today sets p = sets ∧
        dueInPast today p = false) ∧
    (∀ today : Int, buildRenderSets today none = emptyRenderSets) := by
  constructor
  · intro today sets p hdue
    rcases hdue with h | h <;>
      refine ⟨?_, ?_, ?_, ?_⟩ <;>
      simp only [processTodoWorking, processOverdue, processCompleted, dueInPast, h]
  · intro today
    rfl

/-- Witness for claim C8: a record with no due date leaves the empty sets
untouched in the completed-scene pass. -/
theorem claim_C8_witness :
    (({ path := "x.md", Status := some (.inl "Complete"), Class := some (.inl "Scene") } : Page).Due = none ∨
      ({ path := "x.md", Status := some (.inl "Complete"), Class := some (.inl "Scene") } : Page).Due = some DueParse.invalid) ∧
    processCompleted 0 emptyRenderSets
      { path := "x.md", Status := some (.inl "Complete"), Class := some (.inl "Scene") } = emptyRenderSets :=
  ⟨Or.inl rfl,
    (claim_C8_unparsable_dates_and_missing_source.1 0 emptyRenderSets
      { path := "x.md", Status := some (.inl "Complete"), Class := some (.inl "Scene") } (Or.inl rfl)).2.2.1⟩

/-- Claim C10: `isNoteComplete` matches a status case-insensitively after
trimming, while the completed-scene filter requires the exact string
`"Complete"`; consequently the Scene record `r10` (past due, status
`"complete"`) renders its day as split state, its click excludes the record
as completed (leaving no click targets), and yet the record never passes the
completed-scene filter and never reaches any week bucket. -/
theorem claim_C10_completion_test_discrepancy :
    (∀ s : String,
      isNoteComplete { path := "", Status := some (.inl s) } =
        (foldCase (jsTrim s.data) == "complete".data)) ∧
    (∀ l : List String,
      isNoteComplete { path := "", Status := some (.inr l) } =
        l.any (fun s => foldCase (jsTrim s.data) == "complete".data)) ∧
    (∀ s : String,
      statusIncludes { path := "", Status := some (.inl s) } "Complete" =
        (s == "Complete")) ∧
    isNoteComplete r10 = true ∧
    completedFilter r10 = false ∧
    overdueFilter t10 r10 = true ∧
    dayState (buildRenderSets t10 (some [r10])) d10 = .splitOverdue "stage-zero" ∧
    clickTargets ((buildRenderSets t10 (some [r10])).overdue d10)
      ((buildRenderSets t10 (some [r10])).notesByDate d10) = [] ∧
    (buildRenderSets t10 (some [r10])).weekStats = fun _ => none := by
  refine ⟨fun s => rfl, fun l => rfl, fun s => rfl, by decide, by decide, by decide,
    by decide, by decide, ?_⟩
  rfl

/-! Helper lemmas tracking `completedWeekStats` through the render pass. -/

theorem weekStats_processTodoWorking (today : Int) (sets : RenderSets) (p : Page) :
    (processTodoWorking today sets p).weekStats = sets.weekStats := by
  unfold processTodoWorking
  rcases h : p.Due with _ | (_ | d) <;> simp only []
  split_ifs <;> rfl

theorem weekStats_processOverdue (sets : RenderSets) (p : Page) :
    (processOverdue sets p).weekStats = sets.weekStats := by
  unfold processOverdue
  rcases h : p.Due with _ | (_ | d) <;> simp only []
  split_ifs <;> rfl

theorem weekStats_processCompleted (today : Int) (sets : RenderSets) (p : Page) :
    (processCompleted today sets p).weekStats = wsStep today sets.weekStats p := by
  unfold processCompleted wsStep
  rcases h : p.Due with _ | (_ | d) <;> simp only []
  split_ifs <;> rfl

theorem weekStats_foldl_todoWorking (today : Int) (l : List Page) :
    ∀ sets : RenderSets,
      (l.foldl (processTodoWorking today) sets).weekStats = sets.weekStats := by
  induction l with
  | nil => intro sets; rfl
  | cons p tl ih =>
    intro sets
    rw [List.foldl_cons, ih, weekStats_processTodoWorking]

theorem weekStats_foldl_overdue (l : List Page) :
    ∀ sets : RenderSets, (l.foldl processOverdue sets).weekStats = sets.weekStats := by
  induction l with
  | nil => intro sets; rfl
  | cons p tl ih =>
    intro sets
    rw [List.foldl_cons, ih, weekStats_processOverdue]

theorem weekStats_foldl_completed (today : Int) (l : List Page) :
    ∀ sets : RenderSets,
      (l.foldl (processCompleted today) sets).weekStats =
        l.foldl (wsStep today) sets.weekStats := by
  induction l with
  | nil => intro sets; rfl
  | cons p tl ih =>
    intro sets
    rw [List.foldl_cons, ih, weekStats_processCompleted, List.foldl_cons]

theorem weekStats_build (today : Int) (pages : List Page) :
    (buildRenderSets today (some pages)).weekStats =
      (pages.filter completedFilter).foldl (wsStep today) (fun _ => none) := by
  unfold buildRenderSets
  rw [weekStats_foldl_completed, weekStats_foldl_overdue, weekStats_foldl_todoWorking]
  rfl

/-- Claim C1: appending one record with status Complete, class Scene, and a
parsable due date not after today to any page collection increments the
scene count of exactly the bucket keyed by the due date's (year, week) pair,
adds the record's parsed word count to that bucket, and changes no other
bucket; and a week cell with at least one counted scene displays the ratio
`sceneCount` over `⌊wordCount / 100⌋`. -/
theorem claim_C1_week_aggregation (today : Int) (pages : List Page) (p : Page)
    (d : CivilDate) (hc : completedFilter p = true)
    (hd : p.Due = some (DueParse.valid d)) (hle : dayNum d ≤ today) :
    scOf ((buildRenderSets today (some (pages ++ [p]))).weekStats (d.year, getWeekNumber d)) =
      scOf ((buildRenderSets today (some pages)).weekStats (d.year, getWeekNumber d)) + 1 ∧
    wcOf ((buildRenderSets today (some (pages ++ [p]))).weekStats (d.year, getWeekNumber d)) =
      wcOf ((buildRenderSets today (some pages)).weekStats (d.year, getWeekNumber d)) +
        pageWordCount p ∧
    (∀ k2 : Int × Int, k2 ≠ (d.year, getWeekNumber d) →
      (buildRenderSets today (some (pages ++ [p]))).weekStats k2 =
        (buildRenderSets today (some pages)).weekStats k2) ∧
    (∀ s : WeekStats, 1 ≤ s.sceneCount →
      weekRatioDisplay (some s) = some (s.sceneCount, s.wordCount / 100)) := by
  have hstep : ∀ w : Int × Int → Option WeekStats,
      wsStep today w p = fun k =>
        if k = (d.year, getWeekNumber d) then
          some ⟨((w (d.year, getWeekNumber d)).getD ⟨0, 0⟩).sceneCount + 1,
            ((w (d.year, getWeekNumber d)).getD ⟨0, 0⟩).wordCount + pageWordCount p⟩
        else w k := by
    intro w
    unfold wsStep
    rw [hd]
    simp only []
    rw [if_neg (by omega : ¬ today < dayNum d)]
  have hbuild : (buildRenderSets today (some (pages ++ [p]))).weekStats =
      wsStep today ((buildRenderSets today (some pages)).weekStats) p := by
    rw [weekStats_build, weekStats_build, List.filter_append, List.foldl_append]
    have : List.filter completedFilter [p] = [p] := by simp [hc]
    rw [this, List.foldl_cons, List.foldl_nil]
  rw [hbuild, hstep]
  refine ⟨?_, ?_, ?_, ?_⟩
  · simp [scOf]
  · simp [wcOf]
  · intro k2 hk2
    simp [hk2]
  · intro s hs
    simp [weekRatioDisplay, hs]

/-- Witness for claim C1: one completed scene with 1200 words due five days
before today lands in its week's bucket, which then reads 1 scene over
`⌊1200/100⌋ = 12`. -/
theorem claim_C1_witness :
    completedFilter { path := "s1.md", Status := some (.inl "Complete"), Class := some (.inl "Scene"), Due := some (.valid ⟨2025, 6, 10⟩), Words := some (.num 1200) } = true ∧
    dayNum (⟨2025, 6, 10⟩ : CivilDate) ≤ dayNum ⟨2025, 6, 15⟩ ∧
    scOf ((buildRenderSets (dayNum ⟨2025, 6, 15⟩)
        (some [{ path := "s1.md", Status := some (.inl "Complete"), Class := some (.inl "Scene"), Due := some (.valid ⟨2025, 6, 10⟩), Words := some (.num 1200) }])).weekStats
      ((2025 : Int), getWeekNumber ⟨2025, 6, 10⟩)) =
      scOf ((buildRenderSets (dayNum ⟨2025, 6, 15⟩) (some [])).weekStats
        ((2025 : Int), getWeekNumber ⟨2025, 6, 10⟩)) + 1 :=
  ⟨by decide, by decide,
    (claim_C1_week_aggregation (dayNum ⟨2025, 6, 15⟩) []
      { path := "s1.md", Status := some (.inl "Complete"), Class := some (.inl "Scene"), Due := some (.valid ⟨2025, 6, 10⟩), Words := some (.num 1200) }
      ⟨2025, 6, 10⟩ (by decide) rfl (by decide)).1⟩

/-! Helper lemmas for the per-day display state. -/

theorem dotsOf_nodup (scenes : List SceneRev) : (dotsOf scenes).Nodup := by
  unfold dotsOf
  have hsub : List.Sublist
      ((stageChecks.filter (fun ch => stagePresent scenes ch.1)).map (fun ch => ch.2))
      (stageChecks.map (fun ch => ch.2)) :=
    (List.filter_sublist stageChecks).map _
  exact (by decide : (stageChecks.map (fun ch => ch.2)).Nodup).sublist hsub

theorem mem_dotsOf (scenes : List SceneRev) (ch : String × String)
    (hch : ch ∈ stageChecks) :
    ch.2 ∈ dotsOf scenes ↔ stagePresent scenes ch.1 = true := by
  unfold dotsOf
  simp only [List.mem_map, List.mem_filter]
  constructor
  · rintro ⟨ch2, ⟨hmem, hpres⟩, heq⟩
    have hcheq : ch2 = ch := by
      fin_cases hmem <;> fin_cases hch <;> simp_all
    rwa [hcheq] at hpres
  · intro hp
    exact ⟨ch, ⟨hch, hp⟩, rfl⟩

/-- Claim C3: the per-day resolver follows the strict priority chain.  A date
that is overdue and has a completed note resolves to the split state carrying
the completed note's stage class (never plain overdue or stage state); an
overdue date without completed note to the overdue state; otherwise
future-working, then future-todo; otherwise, when completed scenes exist,
to stage markers — one marker per distinct canonical stage present among the
date's completed records, without duplicates. -/
theorem claim_C3_day_state_priority (sets : RenderSets) (d : CivilDate) :
    (sets.overdue d = true → (sets.notesByDate d).any isNoteComplete = true →
      dayState sets d = .splitOverdue (splitStageCls (sets.notesByDate d))) ∧
    (sets.overdue d = true → (sets.notesByDate d).any isNoteComplete = false →
      dayState sets d = .overdueDot) ∧
    (sets.overdue d = false → sets.workingFuture d = true →
      dayState sets d = .workingDot) ∧
    (sets.overdue d = false → sets.workingFuture d = false →
      sets.todoFuture d = true → dayState sets d = .futureTodoDot) ∧
    (sets.overdue d = false → sets.workingFuture d = false →
      sets.todoFuture d = false → sets.revisionMap d ≠ [] →
      ∃ b : Bool, dayState sets d = .stageDots (dotsOf (sets.revisionMap d)) b ∧
        (dotsOf (sets.revisionMap d)).Nodup ∧
        (∀ ch ∈ stageChecks,
          ch.2 ∈ dotsOf (sets.revisionMap d) ↔
            stagePresent (sets.revisionMap d) ch.1 = true)) ∧
    (sets.overdue d = false → sets.workingFuture d = false →
      sets.todoFuture d = false → sets.revisionMap d = [] →
      dayState sets d = .noIndicator) := by
  refine ⟨?_, ?_, ?_, ?_, ?_, ?_⟩
  · intro hov hcomp
    simp [dayState, hov, hcomp]
  · intro hov hcomp
    simp [dayState, hov, hcomp]
  · intro hov hw
    simp [dayState, hov, hw]
  · intro hov hw ht
    simp [dayState, hov, hw, ht]
  · intro hov hw ht hsc
    have hds : dayState sets d = .stageDots (dotsOf (sets.revisionMap d))
        ((sets.revisionMap d).any (fun sc => sc.revision == 0) &&
          (sets.revisionMap d).any (fun sc => sc.revision != 0) &&
          ((sets.revisionMap d).any (fun sc => sc.publishStage == "ZERO") ||
            (sets.revisionMap d).any (fun sc => sc.publishStage == "Zero"))) := by
      simp [dayState, hov, hw, ht, bne_iff_ne, hsc]
    exact ⟨_, hds, dotsOf_nodup _, fun ch hch => mem_dotsOf _ ch hch⟩
  · intro hov hw ht hsc
    simp [dayState, hov, hw, ht, hsc]

/-- Witness for claim C3: on the concrete sets `c3Sets` the date `d10` is
overdue with a completed note, so the resolver yields the split state with
the default zero stage class. -/
theorem claim_C3_witness :
    c3Sets.overdue d10 = true ∧ (c3Sets.notesByDate d10).any isNoteComplete = true ∧
      dayState c3Sets d10 = .splitOverdue (splitStageCls (c3Sets.notesByDate d10)) :=
  ⟨by decide, by decide,
    (claim_C3_day_state_priority c3Sets d10).1 (by decide) (by decide)⟩

/-- Claim C7 counterexample: one targeted note that is already open.  The
spec-worded handler only reveals it, but the code also opens it again as a
new tab, so an already-open target does get a duplicate opened. -/
theorem claim_C7_counterexample :
    clickActions false [{ path := "a.md", Status := some (.inl "Todo") }] ["a.md"]
        (fun _ => true) =
      [ClickAction.revealTab "a.md", ClickAction.openTab "a.md" false] ∧
    clickActionsSpec false [{ path := "a.md", Status := some (.inl "Todo") }] ["a.md"]
        (fun _ => true) =
      [ClickAction.revealTab "a.md"] ∧
    clickActions false [{ path := "a.md", Status := some (.inl "Todo") }] ["a.md"]
        (fun _ => true) ≠
      clickActionsSpec false [{ path := "a.md", Status := some (.inl "Todo") }] ["a.md"]
        (fun _ => true) := by
  refine ⟨rfl, rfl, ?_⟩
  decide

/-! Helper lemma characterizing the open loop of the click handler. -/

theorem openLoop_eq (vault : String → Bool) (didActivateTab : Bool) :
    ∀ (l : List Page) (i : Nat) (processed : List String),
      (l.map (fun n => n.path)).Nodup →
      (∀ q ∈ l, q.path ∉ processed) →
      openLoop vault didActivateTab i processed l =
        ((List.enumFrom i l).filter (fun q => vault q.2.path)).map
          (fun q => ClickAction.openTab q.2.path (!didActivateTab && q.1 == 0)) := by
  intro l
  induction l with
  | nil => intro i processed _ _; rfl
  | cons n rest ih =>
    intro i processed hnd hdisj
    have hmem : n.path ∉ processed := hdisj n (List.mem_cons_self n rest)
    rw [List.map_cons] at hnd
    have hhead : n.path ∉ rest.map (fun q => q.path) := (List.nodup_cons.mp hnd).1
    have hnd2 : (rest.map (fun q => q.path)).Nodup := (List.nodup_cons.mp hnd).2
    have hdisj2 : ∀ q ∈ rest, q.path ∉ n.path :: processed := by
      intro q hq
      simp only [List.mem_cons]
      push_neg
      constructor
      · intro heq
        exact hhead (heq ▸ List.mem_map_of_mem (fun x => x.path) hq)
      · exact hdisj q (List.mem_cons_of_mem n hq)
    unfold openLoop
    rw [if_neg hmem]
    by_cases hv : vault n.path
    · rw [if_pos hv, ih (i + 1) (n.path :: processed) hnd2 hdisj2]
      simp [List.enumFrom, hv]
    · rw [if_neg hv, ih (i + 1) (n.path :: processed) hnd2 hdisj2]
      simp [List.enumFrom, hv]

/-- Claim C7 as amended: target selection is as claimed (only the overdue,
non-Complete notes on a split day, all notes otherwise); the existing tab of
the first target is revealed when that target is already open; and then
every target present in the vault — already open or not — is opened as a new
tab in order (paths assumed distinct, as the dedup set makes repeats no-ops),
active exactly for the first target when no existing tab was revealed. -/
theorem claim_C7_amended :
    (∀ (flag : Bool) (notes : List Page), flag = true →
      notes.any isNoteComplete = true →
      clickTargets flag notes = notes.filter (fun n => !(isNoteComplete n))) ∧
    (∀ (flag : Bool) (notes : List Page),
      flag = false ∨ notes.any isNoteComplete = false →
      clickTargets flag notes = notes) ∧
    (∀ (flag : Bool) (notes : List Page) (openPaths : List String)
        (vault : String → Bool), notes ≠ [] →
      ((clickTargets flag notes).map (fun n => n.path)).Nodup →
      clickActions flag notes openPaths vault =
        (match specReveal (clickTargets flag notes) openPaths with
         | some pth => [ClickAction.revealTab pth]
         | none => []) ++
          specOpenActions vault
            (specReveal (clickTargets flag notes) openPaths).isSome
            (clickTargets flag notes)) := by
  refine ⟨?_, ?_, ?_⟩
  · intro flag notes hflag hany
    unfold clickTargets
    rw [hflag]
    simp [hany]
  · intro flag notes h
    unfold clickTargets
    rcases h with h | h <;> simp [h]
  · intro flag notes openPaths vault hne hnd
    simp only [clickActions, specOpenActions]
    rw [if_neg (by simpa [List.isEmpty_iff] using hne)]
    rw [openLoop_eq vault _ (clickTargets flag notes) 0 [] hnd (by simp)]

/-- Witness for the amended claim C7: two closed targets with distinct paths
on an ordinary day produce two open actions, the first active. -/
theorem claim_C7_witness :
    (([{ path := "a.md" }, { path := "b.md" }] : List Page) ≠ []) ∧
    ((clickTargets false [{ path := "a.md" }, { path := "b.md" }]).map
      (fun n => n.path)).Nodup ∧
    clickActions false [{ path := "a.md" }, { path := "b.md" }] [] (fun _ => true) =
      (match specReveal (clickTargets false [{ path := "a.md" }, { path := "b.md" }]) [] with
       | some pth => [ClickAction.revealTab pth]
       | none => []) ++
        specOpenActions (fun _ => true)
          (specReveal (clickTargets false [{ path := "a.md" }, { path := "b.md" }]) []).isSome
          (clickTargets false [{ path := "a.md" }, { path := "b.md" }]) :=
  ⟨by decide, by decide,
    claim_C7_amended.2.2 false [{ path := "a.md" }, { path := "b.md" }] []
      (fun _ => true) (by decide) (by decide)⟩
